import Mathlib

/-!
Verification development for the permission-gated RPC bridge
(`ProviderBridgeService`) and the dapp-permission redux selectors.

The definitions below are a shallow embedding of the TypeScript source:

* `checkPermission`, `grantPermission`, `denyOrRevokePermission`,
  `requestPermission`, `routeContentScriptRPCRequest`, `onMessageListener`
  embed the methods of `ProviderBridgeService`.  The two private maps
  `#allowedPages` and `#pendingPermissionsRequests` are modelled as
  association lists with JavaScript-object semantics (one binding per key:
  insertion overwrites, deletion removes).  Promise resolvers stored in
  `#pendingPermissionsRequests` are modelled as `Nat` identifiers; a
  suspended caller resumes exactly when its resolver id is invoked.
* `onMessageListener` is split at its `await blockUntilUserAction` point:
  the part before the suspension is `onMessageListener` itself (returning
  a `HandlerOutcome`), the continuation after the suspension is
  `resumeAfterConsent`.
* `selectPermissionRequests`, `selectPendingPermissionRequests` and
  `selectCurrentPendingPermission` embed
  `src/background/redux-slices/selectors/dappPermissionSelectors.ts`.
-/

namespace ProviderBridge

/-- `PermissionRequest` from `@tallyho/provider-bridge-shared` as used by the
service: `{ url, favIconUrl, title, state }`.  The `state` field is the
literal string used by the code (`"request"`, `"allow"`, ...). -/
structure PermissionRequest where
  url : String
  favIconUrl : String
  title : String
  state : String
  deriving Repr, DecidableEq

/-- An opaque RPC value (results and parameters of RPC calls).  The bridge
never inspects these; strings, lists of strings (e.g. account lists) and
null cover every value the claims mention. -/
inductive RPCValue where
  | str (s : String)
  | list (xs : List String)
  | null
  deriving Repr, DecidableEq

/-- `EIP1193_ERROR` codes used by the service. -/
inductive EIP1193ErrorCode where
  | userRejectedRequest
  | unauthorized
  deriving Repr, DecidableEq

/-- The value placed in `PortResponseEvent.result`: either an ordinary RPC
value or an `EIP1193Error` bridge error (sent as data, not thrown). -/
inductive ResultValue where
  | value (v : RPCValue)
  | err (e : EIP1193ErrorCode)
  deriving Repr, DecidableEq

/-- `RPCRequest`: `{ method, params }`. -/
structure RPCRequest where
  method : String
  params : List RPCValue
  deriving Repr, DecidableEq

/-- Inbound `PortRequestEvent`: `{ id, request }`. -/
structure PortRequestEvent where
  id : String
  request : RPCRequest
  deriving Repr, DecidableEq

/-- Outbound `PortResponseEvent`: `{ id, result }`. -/
structure PortResponseEvent where
  id : String
  result : ResultValue
  deriving Repr, DecidableEq

/-- An error raised (thrown / promise rejection) by the internal provider. -/
structure ProviderError where
  message : String
  deriving Repr, DecidableEq

instance {ε α : Type} [DecidableEq ε] [DecidableEq α] :
    DecidableEq (Except ε α) := fun a b =>
  match a, b with
  | Except.ok x, Except.ok y =>
      if h : x = y then isTrue (by rw [h])
      else isFalse (fun hh => h (Except.ok.inj hh))
  | Except.error x, Except.error y =>
      if h : x = y then isTrue (by rw [h])
      else isFalse (fun hh => h (Except.error.inj hh))
  | Except.ok _, Except.error _ => isFalse (fun hh => Except.noConfusion hh)
  | Except.error _, Except.ok _ => isFalse (fun hh => Except.noConfusion hh)

/-- Modelled from the spec: the internal RPC provider's
`routeSafeRPCRequest(method, params) -> result` entry point
(`InternalEthereumProviderService` is not part of the sources here; the spec
says it "may itself fail; failures pass through untouched").  A provider is a
function from method name and params to either a result or a raised error. -/
def Provider : Type :=
  String → List RPCValue → Except ProviderError RPCValue

/-- Sender data read from the port: `port.sender.url`,
`port.sender.tab?.favIconUrl ?? ""`, `port.sender.tab?.title ?? ""` (the
`?? ""` defaults are already applied). -/
structure SenderInfo where
  url : String
  favIconUrl : String
  title : String
  deriving Repr, DecidableEq

/-- Lookup in a JavaScript-object-like association list (`obj[key]`). -/
def lookupAssoc {α : Type} (l : List (String × α)) (k : String) : Option α :=
  (l.find? (fun e => e.1 == k)).map Prod.snd

/-- Key assignment in a JavaScript-object-like association list
(`obj[key] = v`): overwrites any existing binding for `k`. -/
def insertAssoc {α : Type} (k : String) (v : α) (l : List (String × α)) :
    List (String × α) :=
  (k, v) :: l.filter (fun e => e.1 != k)

/-- Key deletion in a JavaScript-object-like association list
(`delete obj[key]`). -/
def eraseAssoc {α : Type} (k : String) (l : List (String × α)) :
    List (String × α) :=
  l.filter (fun e => e.1 != k)

/-- The mutable state of a `ProviderBridgeService` instance:
`#allowedPages` (url → `PermissionRequest`), `#pendingPermissionsRequests`
(url → promise resolver, modelled as a `Nat` id), plus a counter supplying
fresh resolver ids. -/
structure BridgeState where
  allowedPages : List (String × PermissionRequest)
  pendingPermissionsRequests : List (String × Nat)
  nextResolverId : Nat
  deriving Repr, DecidableEq

/-- The empty initial state of a freshly constructed service. -/
def BridgeState.empty : BridgeState :=
  { allowedPages := [], pendingPermissionsRequests := [], nextResolverId := 0 }

/-- `checkPermission(url)`: true iff `#allowedPages[url]?.state === "allow"`. -/
def checkPermission (allowedPages : List (String × PermissionRequest))
    (url : String) : Bool :=
  match lookupAssoc allowedPages url with
  | some p => p.state == "allow"
  | none => false

/-- `grantPermission(permission)`: only when a pending request exists for
`permission.url` does it store the record in `#allowedPages`, invoke the
pending resolver, and delete the pending entry.  Returns the new state and
the list of resolver ids invoked by the call. -/
def grantPermission (st : BridgeState) (permission : PermissionRequest) :
    BridgeState × List Nat :=
  match lookupAssoc st.pendingPermissionsRequests permission.url with
  | some rid =>
      ({ st with
          allowedPages := insertAssoc permission.url permission st.allowedPages,
          pendingPermissionsRequests :=
            eraseAssoc permission.url st.pendingPermissionsRequests },
        [rid])
  | none => (st, [])

/-- `denyOrRevokePermission(permission)`: only when a pending request exists
for `permission.url` does it delete `#allowedPages[url]`, invoke the pending
resolver (with a sentinel value), and delete the pending entry.  Returns the
new state and the list of resolver ids invoked by the call. -/
def denyOrRevokePermission (st : BridgeState) (permission : PermissionRequest) :
    BridgeState × List Nat :=
  match lookupAssoc st.pendingPermissionsRequests permission.url with
  | some rid =>
      ({ st with
          allowedPages := eraseAssoc permission.url st.allowedPages,
          pendingPermissionsRequests :=
            eraseAssoc permission.url st.pendingPermissionsRequests },
        [rid])
  | none => (st, [])

/-- Observable side effects of handling a message: the `requestPermission`
emitter event and the `showDappConnectWindow` launcher call. -/
inductive EmittedEvent where
  | requestPermission (req : PermissionRequest)
  | dappConnectWindowOpened
  deriving Repr, DecidableEq

/-- `requestPermission(permissionRequest)`: emits the `requestPermission`
event, opens the dapp-connect window, and registers a fresh resolver under
`permissionRequest.url` (overwriting any existing one).  Returns the new
state, the fresh resolver id the caller suspends on, and the emitted
events. -/
def requestPermission (st : BridgeState) (req : PermissionRequest) :
    BridgeState × Nat × List EmittedEvent :=
  ({ st with
      pendingPermissionsRequests :=
        insertAssoc req.url st.nextResolverId st.pendingPermissionsRequests,
      nextResolverId := st.nextResolverId + 1 },
    st.nextResolverId,
    [EmittedEvent.requestPermission req, EmittedEvent.dappConnectWindowOpened])

/-- `routeContentScriptRPCRequest(method, params)`: forwards to the internal
provider's `routeSafeRPCRequest`, rewriting `"eth_requestAccounts"` to
`"eth_accounts"` and passing every other method through unchanged. -/
def routeContentScriptRPCRequest (provider : Provider) (method : String)
    (params : List RPCValue) : Except ProviderError RPCValue :=
  if method == "eth_requestAccounts" then provider "eth_accounts" params
  else provider method params

/-- A caller suspended at `await blockUntilUserAction`: the inbound id, the
sender url, and the resolver id whose invocation resumes it. -/
structure SuspendedCall where
  id : String
  url : String
  resolverId : Nat
  deriving Repr, DecidableEq

/-- What `onMessageListener` does up to its first suspension point:
either it posts a reply, or it suspends awaiting consent, or an error raised
by the provider escapes it (there is no try/catch) and no reply is posted. -/
inductive HandlerOutcome where
  | reply (resp : PortResponseEvent)
  | suspend (susp : SuspendedCall)
  | raised (e : ProviderError)
  deriving Repr, DecidableEq

/-- Result of running `onMessageListener` up to its first suspension point
(or to completion when it does not suspend). -/
structure HandleResult where
  outcome : HandlerOutcome
  state : BridgeState
  events : List EmittedEvent
  deriving Repr, DecidableEq

/-- `onMessageListener(port, event)` up to the `await blockUntilUserAction`
suspension point.  The response is initialised to `{ id: event.id,
result: [] }`; if the sender url is allowed the request is dispatched and the
reply posted (a provider error escapes uncaught); else if the method is
`"eth_requestAccounts"` the consent flow starts and the handler suspends;
else the `unauthorized` bridge error is posted. -/
def onMessageListener (provider : Provider) (st : BridgeState)
    (sender : SenderInfo) (event : PortRequestEvent) : HandleResult :=
  if checkPermission st.allowedPages sender.url then
    match routeContentScriptRPCRequest provider event.request.method
        event.request.params with
    | Except.ok v =>
        { outcome := HandlerOutcome.reply { id := event.id, result := ResultValue.value v },
          state := st, events := [] }
    | Except.error e =>
        { outcome := HandlerOutcome.raised e, state := st, events := [] }
  else if event.request.method == "eth_requestAccounts" then
    let req : PermissionRequest :=
      { url := sender.url, favIconUrl := sender.favIconUrl,
        title := sender.title, state := "request" }
    let r := requestPermission st req
    { outcome := HandlerOutcome.suspend
        { id := event.id, url := sender.url, resolverId := r.2.1 },
      state := r.1, events := r.2.2 }
  else
    { outcome := HandlerOutcome.reply
        { id := event.id, result := ResultValue.err EIP1193ErrorCode.unauthorized },
      state := st, events := [] }

/-- The continuation of `onMessageListener` after `await blockUntilUserAction`
resolves: re-check the permission; if it is still false the response's result
becomes the `userRejectedRequest` bridge error; otherwise the response's
result is left as its initialisation value `[]` (the code performs no
dispatch here).  The reply is then posted with the suspended call's id. -/
def resumeAfterConsent (st : BridgeState) (susp : SuspendedCall) :
    PortResponseEvent :=
  if checkPermission st.allowedPages susp.url then
    { id := susp.id, result := ResultValue.value (RPCValue.list []) }
  else
    { id := susp.id, result := ResultValue.err EIP1193ErrorCode.userRejectedRequest }

/-- An external call into the service: the consent surface calling
`grantPermission` / `denyOrRevokePermission`, or a new port message being
handled by `onMessageListener`. -/
inductive Op where
  | grantOp (p : PermissionRequest)
  | denyOp (p : PermissionRequest)
  | messageOp (sender : SenderInfo) (event : PortRequestEvent)
  deriving Repr, DecidableEq

/-- One external call: the resulting state and the resolver ids invoked
(a suspended caller resumes exactly when its resolver id is invoked;
`onMessageListener` itself never invokes a resolver). -/
def step (provider : Provider) (st : BridgeState) (op : Op) :
    BridgeState × List Nat :=
  match op with
  | Op.grantOp p => grantPermission st p
  | Op.denyOp p => denyOrRevokePermission st p
  | Op.messageOp sender event =>
      ((onMessageListener provider st sender event).state, [])

/-- A sequence of external calls: final state and all resolver ids invoked
along the way. -/
def run (provider : Provider) (st : BridgeState) : List Op →
    BridgeState × List Nat
  | [] => (st, [])
  | op :: rest =>
      let r := step provider st op
      let r2 := run provider r.1 rest
      (r2.1, r.2 ++ r2.2)

/-- A concrete provider used in witness scenarios: `eth_accounts` returns a
one-element account list, every other method echoes its name. -/
def providerEx : Provider := fun m _ =>
  if m == "eth_accounts" then Except.ok (RPCValue.list ["0xabc"])
  else Except.ok (RPCValue.str m)

/-- A concrete provider whose every call raises an error. -/
def providerBoom : Provider := fun _ _ =>
  Except.error { message := "boom" }

/-- A concrete sender. -/
def senderDapp : SenderInfo :=
  { url := "https://dapp.example", favIconUrl := "", title := "" }

/-- A concrete connection-request envelope. -/
def reqAccountsEvent : PortRequestEvent :=
  { id := "1", request := { method := "eth_requestAccounts", params := [] } }

/-- A concrete non-connection envelope. -/
def signEvent : PortRequestEvent :=
  { id := "2",
    request := { method := "personal_sign", params := [RPCValue.str "0xdead"] } }

/-- A concrete allowed record for `senderDapp`. -/
def allowRecord : PermissionRequest :=
  { url := "https://dapp.example", favIconUrl := "", title := "", state := "allow" }

/-- A concrete state in which `senderDapp` is allowed and nothing is
pending. -/
def allowedState : BridgeState :=
  { allowedPages := [("https://dapp.example", allowRecord)],
    pendingPermissionsRequests := [], nextResolverId := 5 }

/-- A concrete state with one pending consent entry (resolver id 0) for
`senderDapp` and no allowed pages. -/
def pendingState : BridgeState :=
  { allowedPages := [],
    pendingPermissionsRequests := [("https://dapp.example", 0)],
    nextResolverId := 1 }

/-- A concrete state in which `senderDapp` is both allowed and has a pending
consent entry (resolver id 3). -/
def bothState : BridgeState :=
  { allowedPages := [("https://dapp.example", allowRecord)],
    pendingPermissionsRequests := [("https://dapp.example", 3)],
    nextResolverId := 4 }

/-- Resolver `h1` is no longer held by the pending-consent registry and can
never be handed out again (every fresh id is at least `nextResolverId`). -/
def resolverAbsent (st : BridgeState) (h1 : Nat) : Prop :=
  (∀ e ∈ st.pendingPermissionsRequests, e.2 ≠ h1) ∧ h1 < st.nextResolverId

/-- End-to-end scenario, step 1: the bridge state after a connection request
from `senderDapp` arrives on an empty service (the caller is now suspended
on resolver id 0). -/
def c1SuspendedState : BridgeState :=
  (onMessageListener providerEx BridgeState.empty senderDapp reqAccountsEvent).state

/-- End-to-end scenario, step 2: the external consent surface grants the
permission; the pending resolver is invoked, resuming the suspended caller. -/
def c1AfterGrant : BridgeState × List Nat :=
  grantPermission c1SuspendedState allowRecord

end ProviderBridge

namespace DappPermissionSelectors

open ProviderBridge

/-- The `dappPermission` redux slice: `permissionRequests` is a keyed record
(url → `PermissionRequest`), modelled as an association list in insertion
order (`Object.values` returns the values in that order). -/
structure DAppPermissionState where
  permissionRequests : List (String × PermissionRequest)
  deriving Repr, DecidableEq

/-- The redux root state (only the slice the selectors read). -/
structure RootState where
  dappPermission : DAppPermissionState
  deriving Repr, DecidableEq

/-- `getProviderBridgeState`: projects the `dappPermission` slice. -/
def getProviderBridgeState (s : RootState) : DAppPermissionState :=
  s.dappPermission

/-- `selectPermissionRequests`: `Object.values(slice.permissionRequests)`. -/
def selectPermissionRequests (s : RootState) : List PermissionRequest :=
  (getProviderBridgeState s).permissionRequests.map Prod.snd

/-- `selectPendingPermissionRequests`: the permission requests whose `state`
is `"request"`. -/
def selectPendingPermissionRequests (s : RootState) : List PermissionRequest :=
  (selectPermissionRequests s).filter (fun p => p.state == "request")

/-- `selectCurrentPendingPermission`: `permissionRequests[0]` — the first
pending request, or `none` (JavaScript `undefined`) when there is none. -/
def selectCurrentPendingPermission (s : RootState) : Option PermissionRequest :=
  (selectPendingPermissionRequests s).head?

end DappPermissionSelectors

namespace ProviderBridge

theorem lookupAssoc_insertAssoc_self {α : Type} (k : String) (v : α)
    (l : List (String × α)) : lookupAssoc (insertAssoc k v l) k = some v := by
  simp [lookupAssoc, insertAssoc, List.find?]

theorem filter_ne_filter_eq {α : Type} (k : String) (l : List (String × α)) :
    (l.filter (fun e => e.1 != k)).filter (fun e => e.1 == k) = [] := by
  rw [List.filter_filter]
  apply List.filter_eq_nil_iff.mpr
  intro a _
  by_cases h : a.1 = k <;> simp [h]

theorem lookupAssoc_eraseAssoc_self {α : Type} (k : String)
    (l : List (String × α)) : lookupAssoc (eraseAssoc k l) k = none := by
  induction l with
  | nil => rfl
  | cons a l ih =>
      by_cases h : a.1 = k
      · simp only [eraseAssoc, List.filter] at ih ⊢
        simpa [h] using ih
      · simpa [eraseAssoc, lookupAssoc, List.find?, h] using ih

theorem mem_eraseAssoc {α : Type} {k : String} {e : String × α}
    {l : List (String × α)} (h : e ∈ eraseAssoc k l) : e ∈ l :=
  List.mem_of_mem_filter h

theorem mem_insertAssoc {α : Type} {k : String} {v : α} {e : String × α}
    {l : List (String × α)} (h : e ∈ insertAssoc k v l) :
    e = (k, v) ∨ (e ∈ l ∧ e.1 ≠ k) := by
  rcases List.mem_cons.mp h with h1 | h2
  · exact Or.inl h1
  · rcases List.mem_filter.mp h2 with ⟨hmem, hne⟩
    exact Or.inr ⟨hmem, by simpa using hne⟩

theorem exists_mem_of_lookupAssoc_some {α : Type} {l : List (String × α)}
    {k : String} {v : α} (h : lookupAssoc l k = some v) :
    ∃ e ∈ l, e.1 = k ∧ e.2 = v := by
  unfold lookupAssoc at h
  cases hf : l.find? (fun e => e.1 == k) with
  | none => rw [hf] at h; cases h
  | some e =>
      rw [hf] at h
      refine ⟨e, List.mem_of_find?_eq_some hf, ?_, ?_⟩
      · have := List.find?_some hf
        simpa using this
      · have hv : some e.2 = some v := by simpa using h
        exact Option.some.inj hv

theorem checkPermission_insertAssoc_self (l : List (String × PermissionRequest))
    (u : String) (r : PermissionRequest) :
    checkPermission (insertAssoc u r l) u = (r.state == "allow") := by
  simp [checkPermission, lookupAssoc_insertAssoc_self]

theorem checkPermission_eraseAssoc_self (l : List (String × PermissionRequest))
    (u : String) : checkPermission (eraseAssoc u l) u = false := by
  simp [checkPermission, lookupAssoc_eraseAssoc_self]

theorem checkPermission_eq_false_of_lookup_none
    {l : List (String × PermissionRequest)} {u : String}
    (h : lookupAssoc l u = none) : checkPermission l u = false := by
  simp [checkPermission, h]

theorem resumeAfterConsent_id (st : BridgeState) (susp : SuspendedCall) :
    (resumeAfterConsent st susp).id = susp.id := by
  unfold resumeAfterConsent
  split <;> rfl

/-- C7: `routeContentScriptRPCRequest` forwards to the provider's
`routeSafeRPCRequest`, rewriting the method name `"eth_requestAccounts"` to
`"eth_accounts"`; every other method name and the parameters pass through
unchanged. -/
theorem C7_dispatch_rewrites_connection_method (provider : Provider)
    (params : List RPCValue) (m : String) (hm : m ≠ "eth_requestAccounts") :
    routeContentScriptRPCRequest provider "eth_requestAccounts" params
        = provider "eth_accounts" params ∧
    routeContentScriptRPCRequest provider m params = provider m params := by
  constructor
  · rfl
  · simp [routeContentScriptRPCRequest, hm]

theorem C7_dispatch_rewrites_connection_method_witness :
    "personal_sign" ≠ "eth_requestAccounts" ∧
    routeContentScriptRPCRequest providerEx "eth_requestAccounts" []
        = providerEx "eth_accounts" [] ∧
    routeContentScriptRPCRequest providerEx "personal_sign" []
        = providerEx "personal_sign" [] :=
  ⟨by decide,
    (C7_dispatch_rewrites_connection_method providerEx [] "personal_sign"
      (by decide)).1,
    (C7_dispatch_rewrites_connection_method providerEx [] "personal_sign"
      (by decide)).2⟩

/-- C5: for an origin with no stored permission record and a method other
than `"eth_requestAccounts"`, the handler immediately replies with the
`unauthorized` bridge error, emits no event (so no consent suspension and no
launcher call), and leaves the whole bridge state — permission store and
pending-consent registry — unchanged. -/
theorem C5_unauthenticated_fails_closed (provider : Provider)
    (st : BridgeState) (sender : SenderInfo) (event : PortRequestEvent)
    (hrec : lookupAssoc st.allowedPages sender.url = none)
    (hm : event.request.method ≠ "eth_requestAccounts") :
    onMessageListener provider st sender event =
      { outcome := HandlerOutcome.reply
          { id := event.id,
            result := ResultValue.err EIP1193ErrorCode.unauthorized },
        state := st, events := [] } := by
  have hc := checkPermission_eq_false_of_lookup_none hrec
  simp [onMessageListener, hc, hm]

theorem C5_unauthenticated_fails_closed_witness :
    lookupAssoc BridgeState.empty.allowedPages senderDapp.url = none ∧
    signEvent.request.method ≠ "eth_requestAccounts" ∧
    onMessageListener providerEx BridgeState.empty senderDapp signEvent =
      { outcome := HandlerOutcome.reply
          { id := "2", result := ResultValue.err EIP1193ErrorCode.unauthorized },
        state := BridgeState.empty, events := [] } :=
  ⟨by decide, by decide,
    C5_unauthenticated_fails_closed providerEx BridgeState.empty senderDapp
      signEvent (by decide) (by decide)⟩

/-- C3 counterexample: `grantPermission` is guarded by the pending-consent
registry.  On a state with no pending entry for the record's url, granting
`allowRecord` changes nothing and `checkPermission` is `false` afterwards —
the claim says it must be `true`. -/
theorem C3_grant_counterexample :
    grantPermission BridgeState.empty allowRecord = (BridgeState.empty, []) ∧
    checkPermission
        (grantPermission BridgeState.empty allowRecord).1.allowedPages
        "https://dapp.example" = false := by decide

/-- C3 amended: when a pending consent entry exists for `r.url`,
`grantPermission r` stores `r` verbatim (so `checkPermission` is `true`
afterwards exactly when `r.state = "allow"`), invokes the pending resolver
once, and removes the pending entry; a second call with the same record is
then a no-op.  When no pending entry exists, `grantPermission` is a no-op
and invokes nothing. -/
theorem C3_grant_requires_pending_entry (st : BridgeState)
    (r : PermissionRequest) :
    (lookupAssoc st.pendingPermissionsRequests r.url = none →
        grantPermission st r = (st, [])) ∧
    (∀ rid, lookupAssoc st.pendingPermissionsRequests r.url = some rid →
        (grantPermission st r).2 = [rid] ∧
        lookupAssoc (grantPermission st r).1.allowedPages r.url = some r ∧
        checkPermission (grantPermission st r).1.allowedPages r.url
            = (r.state == "allow") ∧
        lookupAssoc (grantPermission st r).1.pendingPermissionsRequests r.url
            = none ∧
        grantPermission (grantPermission st r).1 r
            = ((grantPermission st r).1, [])) := by
  constructor
  · intro hnone
    simp [grantPermission, hnone]
  · intro rid hsome
    have h2 : (grantPermission st r) =
        ({ st with
            allowedPages := insertAssoc r.url r st.allowedPages,
            pendingPermissionsRequests :=
              eraseAssoc r.url st.pendingPermissionsRequests }, [rid]) := by
      simp [grantPermission, hsome]
    rw [h2]
    refine ⟨rfl, ?_, ?_, ?_, ?_⟩
    · exact lookupAssoc_insertAssoc_self r.url r st.allowedPages
    · exact checkPermission_insertAssoc_self st.allowedPages r.url r
    · exact lookupAssoc_eraseAssoc_self r.url st.pendingPermissionsRequests
    · simp [grantPermission, lookupAssoc_eraseAssoc_self]

theorem C3_grant_requires_pending_entry_witness :
    lookupAssoc pendingState.pendingPermissionsRequests allowRecord.url
        = some 0 ∧
    checkPermission (grantPermission pendingState allowRecord).1.allowedPages
        allowRecord.url = (allowRecord.state == "allow") :=
  ⟨by decide,
    ((C3_grant_requires_pending_entry pendingState allowRecord).2 0
      (by decide)).2.2.1⟩

/-- C4 counterexample: `denyOrRevokePermission` is also guarded by the
pending-consent registry.  On a state where the origin is allowed but no
consent is pending, revoking is a complete no-op: the stored record stays
and `checkPermission` is still `true` afterwards — the claim says it must be
`false`. -/
theorem C4_revoke_counterexample :
    denyOrRevokePermission allowedState allowRecord = (allowedState, []) ∧
    checkPermission
        (denyOrRevokePermission allowedState allowRecord).1.allowedPages
        "https://dapp.example" = true := by decide

/-- C4 amended: when a pending consent entry exists for `p.url`,
`denyOrRevokePermission p` removes any stored record for `p.url` (so
`checkPermission` is `false` afterwards), invokes the pending resolver once
with a sentinel, and removes the pending entry; a second call in succession
is then a no-op.  When no pending entry exists — in particular for an
absent origin, or on the second of two successive calls — it is a no-op
with no error, even if an allowed record for `p.url` remains stored. -/
theorem C4_revoke_requires_pending_entry (st : BridgeState)
    (p : PermissionRequest) :
    (lookupAssoc st.pendingPermissionsRequests p.url = none →
        denyOrRevokePermission st p = (st, [])) ∧
    (∀ rid, lookupAssoc st.pendingPermissionsRequests p.url = some rid →
        (denyOrRevokePermission st p).2 = [rid] ∧
        lookupAssoc (denyOrRevokePermission st p).1.allowedPages p.url
            = none ∧
        checkPermission (denyOrRevokePermission st p).1.allowedPages p.url
            = false ∧
        lookupAssoc
            (denyOrRevokePermission st p).1.pendingPermissionsRequests p.url
            = none ∧
        denyOrRevokePermission (denyOrRevokePermission st p).1 p
            = ((denyOrRevokePermission st p).1, [])) := by
  constructor
  · intro hnone
    simp [denyOrRevokePermission, hnone]
  · intro rid hsome
    have h2 : (denyOrRevokePermission st p) =
        ({ st with
            allowedPages := eraseAssoc p.url st.allowedPages,
            pendingPermissionsRequests :=
              eraseAssoc p.url st.pendingPermissionsRequests }, [rid]) := by
      simp [denyOrRevokePermission, hsome]
    rw [h2]
    refine ⟨rfl, ?_, ?_, ?_, ?_⟩
    · exact lookupAssoc_eraseAssoc_self p.url st.allowedPages
    · exact checkPermission_eraseAssoc_self st.allowedPages p.url
    · exact lookupAssoc_eraseAssoc_self p.url st.pendingPermissionsRequests
    · simp [denyOrRevokePermission, lookupAssoc_eraseAssoc_self]

theorem C4_revoke_requires_pending_entry_witness :
    lookupAssoc bothState.pendingPermissionsRequests allowRecord.url
        = some 3 ∧
    checkPermission
        (denyOrRevokePermission bothState allowRecord).1.allowedPages
        allowRecord.url = false :=
  ⟨by decide,
    ((C4_revoke_requires_pending_entry bothState allowRecord).2 3
      (by decide)).2.2.1⟩

/-- C6: a connection request (`"eth_requestAccounts"`) from an origin with
no stored record emits exactly one `requestPermission` event — carrying a
`PermissionRequest` with state `"request"` — followed by the single
launcher call, registers exactly one pending consent entry for the origin
(holding the fresh resolver id), and suspends: no reply is produced until
the registered resolver is invoked. -/
theorem C6_connection_request_suspends (provider : Provider)
    (st : BridgeState) (sender : SenderInfo) (event : PortRequestEvent)
    (hrec : lookupAssoc st.allowedPages sender.url = none)
    (hm : event.request.method = "eth_requestAccounts") :
    (onMessageListener provider st sender event).events
        = [EmittedEvent.requestPermission
            { url := sender.url, favIconUrl := sender.favIconUrl,
              title := sender.title, state := "request" },
           EmittedEvent.dappConnectWindowOpened] ∧
    (onMessageListener provider st sender event).outcome
        = HandlerOutcome.suspend
            { id := event.id, url := sender.url,
              resolverId := st.nextResolverId } ∧
    (onMessageListener provider st sender
          event).state.pendingPermissionsRequests.filter
          (fun e => e.1 == sender.url)
        = [(sender.url, st.nextResolverId)] ∧
    lookupAssoc
        (onMessageListener provider st sender
          event).state.pendingPermissionsRequests sender.url
        = some st.nextResolverId := by
  have hc := checkPermission_eq_false_of_lookup_none hrec
  have hres : onMessageListener provider st sender event =
      { outcome := HandlerOutcome.suspend
          { id := event.id, url := sender.url,
            resolverId := st.nextResolverId },
        state := { st with
          pendingPermissionsRequests :=
            insertAssoc sender.url st.nextResolverId
              st.pendingPermissionsRequests,
          nextResolverId := st.nextResolverId + 1 },
        events := [EmittedEvent.requestPermission
            { url := sender.url, favIconUrl := sender.favIconUrl,
              title := sender.title, state := "request" },
           EmittedEvent.dappConnectWindowOpened] } := by
    simp [onMessageListener, requestPermission, hc, hm]
  rw [hres]
  refine ⟨rfl, rfl, ?_, ?_⟩
  · show ((sender.url, st.nextResolverId) ::
        st.pendingPermissionsRequests.filter
          (fun e => e.1 != sender.url)).filter
          (fun e => e.1 == sender.url) = _
    simp [List.filter, filter_ne_filter_eq]
  · exact lookupAssoc_insertAssoc_self sender.url st.nextResolverId
      st.pendingPermissionsRequests

theorem C6_connection_request_suspends_witness :
    lookupAssoc BridgeState.empty.allowedPages senderDapp.url = none ∧
    reqAccountsEvent.request.method = "eth_requestAccounts" ∧
    lookupAssoc
        (onMessageListener providerEx BridgeState.empty senderDapp
          reqAccountsEvent).state.pendingPermissionsRequests senderDapp.url
        = some 0 :=
  ⟨by decide, by decide,
    (C6_connection_request_suspends providerEx BridgeState.empty senderDapp
      reqAccountsEvent (by decide) (by decide)).2.2.2⟩

theorem onMessageListener_state_cases (provider : Provider) (st : BridgeState)
    (sender : SenderInfo) (event : PortRequestEvent) :
    (onMessageListener provider st sender event).state = st ∨
    (onMessageListener provider st sender event).state =
      { st with
          pendingPermissionsRequests :=
            insertAssoc sender.url st.nextResolverId
              st.pendingPermissionsRequests,
          nextResolverId := st.nextResolverId + 1 } := by
  unfold onMessageListener
  by_cases hc : checkPermission st.allowedPages sender.url
  · cases hroute : routeContentScriptRPCRequest provider event.request.method
        event.request.params with
    | ok v => simp [hc, hroute]
    | error e => simp [hc, hroute]
  · by_cases hm : event.request.method == "eth_requestAccounts"
    · simp [hc, hm, requestPermission]
    · simp [hc, hm]

theorem resolverAbsent_step (provider : Provider) (st : BridgeState) (op : Op)
    (h1 : Nat) (h : resolverAbsent st h1) :
    resolverAbsent (step provider st op).1 h1 ∧
    h1 ∉ (step provider st op).2 := by
  obtain ⟨hvals, hlt⟩ := h
  cases op with
  | grantOp p =>
      cases hl : lookupAssoc st.pendingPermissionsRequests p.url with
      | none =>
          simp only [step, grantPermission, hl]
          exact ⟨⟨hvals, hlt⟩, by simp⟩
      | some rid =>
          simp only [step, grantPermission, hl]
          refine ⟨⟨fun e he => hvals e (mem_eraseAssoc he), hlt⟩, ?_⟩
          obtain ⟨e, he, _, hev⟩ := exists_mem_of_lookupAssoc_some hl
          have : rid ≠ h1 := hev ▸ hvals e he
          simpa using fun habs => this habs.symm
  | denyOp p =>
      cases hl : lookupAssoc st.pendingPermissionsRequests p.url with
      | none =>
          simp only [step, denyOrRevokePermission, hl]
          exact ⟨⟨hvals, hlt⟩, by simp⟩
      | some rid =>
          simp only [step, denyOrRevokePermission, hl]
          refine ⟨⟨fun e he => hvals e (mem_eraseAssoc he), hlt⟩, ?_⟩
          obtain ⟨e, he, _, hev⟩ := exists_mem_of_lookupAssoc_some hl
          have : rid ≠ h1 := hev ▸ hvals e he
          simpa using fun habs => this habs.symm
  | messageOp sender event =>
      simp only [step]
      refine ⟨?_, by simp⟩
      rcases onMessageListener_state_cases provider st sender event with
        hs | hs <;> rw [hs]
      · exact ⟨hvals, hlt⟩
      · refine ⟨fun e he => ?_, Nat.lt_succ_of_lt hlt⟩
        rcases mem_insertAssoc he with he1 | ⟨he2, _⟩
        · rw [he1]
          exact fun habs => Nat.lt_irrefl h1 (habs ▸ hlt)
        · exact hvals e he2

theorem resolverAbsent_run (provider : Provider) (ops : List Op) :
    ∀ st h1, resolverAbsent st h1 →
      resolverAbsent (run provider st ops).1 h1 ∧
      h1 ∉ (run provider st ops).2 := by
  induction ops with
  | nil =>
      intro st h1 h
      exact ⟨h, by simp [run]⟩
  | cons op rest ih =>
      intro st h1 h
      have hstep := resolverAbsent_step provider st op h1 h
      have hrest := ih (step provider st op).1 h1 hstep.1
      refine ⟨hrest.1, ?_⟩
      simp only [run, List.mem_append]
      exact fun habs => habs.elim (fun hx => hstep.2 hx) (fun hx => hrest.2 hx)

/-- C9: `#pendingPermissionsRequests` holds at most one resolver per origin.
When a second connection request from an origin whose consent is still
pending (resolver `h1`) is handled, the fresh resolver overwrites `h1`: the
registry then maps the origin to the fresh id, `h1` is gone from the
registry, and no sequence of further calls (grants, denials, new messages)
ever invokes `h1` — the first suspended caller never resumes. -/
theorem C9_second_register_orphans_first (provider : Provider)
    (st : BridgeState) (sender : SenderInfo) (event : PortRequestEvent)
    (h1 : Nat)
    (hpend : lookupAssoc st.pendingPermissionsRequests sender.url = some h1)
    (honly : ∀ e ∈ st.pendingPermissionsRequests, e.2 = h1 →
        e.1 = sender.url)
    (hlt : h1 < st.nextResolverId)
    (hrec : lookupAssoc st.allowedPages sender.url = none)
    (hm : event.request.method = "eth_requestAccounts") :
    lookupAssoc
        (onMessageListener provider st sender
          event).state.pendingPermissionsRequests sender.url
        = some st.nextResolverId ∧
    st.nextResolverId ≠ h1 ∧
    (∀ e ∈ (onMessageListener provider st sender
        event).state.pendingPermissionsRequests, e.2 ≠ h1) ∧
    (∀ ops, h1 ∉
        (run provider (onMessageListener provider st sender event).state
          ops).2) := by
  have hc := checkPermission_eq_false_of_lookup_none hrec
  have hs : (onMessageListener provider st sender event).state =
      { st with
          pendingPermissionsRequests :=
            insertAssoc sender.url st.nextResolverId
              st.pendingPermissionsRequests,
          nextResolverId := st.nextResolverId + 1 } := by
    simp [onMessageListener, requestPermission, hc, hm]
  have hne : st.nextResolverId ≠ h1 :=
    fun habs => Nat.lt_irrefl h1 (habs ▸ hlt)
  have hvals : ∀ e ∈ (onMessageListener provider st sender
      event).state.pendingPermissionsRequests, e.2 ≠ h1 := by
    rw [hs]
    intro e he
    rcases mem_insertAssoc he with he1 | ⟨he2, hkey⟩
    · rw [he1]
      exact hne
    · exact fun habs => hkey (honly e he2 habs)
  refine ⟨?_, hne, hvals, ?_⟩
  · rw [hs]
    exact lookupAssoc_insertAssoc_self sender.url st.nextResolverId
      st.pendingPermissionsRequests
  · intro ops
    have habs : resolverAbsent
        (onMessageListener provider st sender event).state h1 := by
      refine ⟨hvals, ?_⟩
      rw [hs]
      exact Nat.lt_succ_of_lt hlt
    exact (resolverAbsent_run provider ops _ h1 habs).2

theorem C9_second_register_orphans_first_witness :
    lookupAssoc pendingState.pendingPermissionsRequests senderDapp.url
        = some 0 ∧
    lookupAssoc
        (onMessageListener providerEx pendingState senderDapp
          reqAccountsEvent).state.pendingPermissionsRequests senderDapp.url
        = some 1 :=
  ⟨by decide,
    (C9_second_register_orphans_first providerEx pendingState senderDapp
      reqAccountsEvent 0 (by decide) (by decide) (by decide) (by decide)
      (by decide)).1⟩

/-- C8: every reply the handler posts carries the inbound envelope's id —
in the authenticated-dispatch branch and the unauthorized branch directly,
and in the consent branch the suspended call later resumed by
`resumeAfterConsent` also replies with the inbound id, whatever the state at
resumption time. -/
theorem C8_response_id_equals_request_id (provider : Provider)
    (st st2 : BridgeState) (sender : SenderInfo) (event : PortRequestEvent) :
    (∀ resp, (onMessageListener provider st sender event).outcome
        = HandlerOutcome.reply resp → resp.id = event.id) ∧
    (∀ susp, (onMessageListener provider st sender event).outcome
        = HandlerOutcome.suspend susp →
      (resumeAfterConsent st2 susp).id = event.id) := by
  unfold onMessageListener
  by_cases hc : checkPermission st.allowedPages sender.url
  · cases hroute : routeContentScriptRPCRequest provider event.request.method
        event.request.params with
    | ok v =>
        refine ⟨fun resp h => ?_, fun susp h => ?_⟩ <;>
          simp [hc, hroute] at h
        rw [← h]
    | error e =>
        refine ⟨fun resp h => ?_, fun susp h => ?_⟩ <;>
          simp [hc, hroute] at h
  · by_cases hm : event.request.method == "eth_requestAccounts"
    · refine ⟨fun resp h => ?_, fun susp h => ?_⟩ <;>
        simp [hc, hm] at h
      rw [resumeAfterConsent_id, ← h]
    · refine ⟨fun resp h => ?_, fun susp h => ?_⟩ <;>
        simp [hc, hm] at h
      rw [← h]

theorem C8_response_id_equals_request_id_witness :
    ((onMessageListener providerEx allowedState senderDapp signEvent).outcome
      = HandlerOutcome.reply
          { id := "2", result := ResultValue.value (RPCValue.str "personal_sign") }) ∧
    ({ id := "2",
       result := ResultValue.value (RPCValue.str "personal_sign") }
        : PortResponseEvent).id = signEvent.id :=
  ⟨by decide,
    (C8_response_id_equals_request_id providerEx allowedState BridgeState.empty
        senderDapp signEvent).1
      { id := "2", result := ResultValue.value (RPCValue.str "personal_sign") }
      (by decide)⟩

/-- C1: the spec's end-to-end scenario, evaluated on the code.  A connection
request from an unauthorized origin suspends on resolver 0; the external
actor grants (invoking resolver 0, so the caller resumes); the re-check is
now true — but the resumed code replies with the response's initialisation
value `[]`, not with the result of dispatching the connection method
(`"eth_accounts"` returns `["0xabc"]` here).  The re-check-false half of the
claim does hold: resuming without the grant replies `userRejectedRequest`.
This exhibits the code bug behind C1: the consent-granted path never
overwrites the `result: []` placeholder. -/
theorem C1_granted_consent_replies_placeholder :
    (onMessageListener providerEx BridgeState.empty senderDapp
        reqAccountsEvent).outcome
      = HandlerOutcome.suspend
          { id := "1", url := "https://dapp.example", resolverId := 0 } ∧
    c1AfterGrant.2 = [0] ∧
    checkPermission c1AfterGrant.1.allowedPages "https://dapp.example"
      = true ∧
    resumeAfterConsent c1AfterGrant.1
        { id := "1", url := "https://dapp.example", resolverId := 0 }
      = { id := "1", result := ResultValue.value (RPCValue.list []) } ∧
    routeContentScriptRPCRequest providerEx "eth_requestAccounts" []
      = Except.ok (RPCValue.list ["0xabc"]) ∧
    ResultValue.value (RPCValue.list [])
      ≠ ResultValue.value (RPCValue.list ["0xabc"]) ∧
    resumeAfterConsent c1SuspendedState
        { id := "1", url := "https://dapp.example", resolverId := 0 }
      = { id := "1",
          result := ResultValue.err EIP1193ErrorCode.userRejectedRequest } := by
  decide

/-- C2 counterexample: with an authorized origin and a provider whose call
raises an error, `onMessageListener` has no try/catch: the raised provider
error escapes the handler and no `PortResponseEvent` is posted — the claim
says every outcome, including provider errors, is delivered inside a
response's `result` and the handler never raises across the channel. -/
theorem C2_provider_error_escapes_counterexample :
    (onMessageListener providerBoom allowedState senderDapp signEvent).outcome
      = HandlerOutcome.raised { message := "boom" } := by decide

/-- C2 amended: successes and bridge errors are delivered inside `result` —
an authorized dispatch that succeeds replies with the provider's value, the
unauthorized branch replies with the `unauthorized` bridge error, and a
resumed consent flow always replies with data (`[]` or the
`userRejectedRequest` bridge error).  But an error raised by the internal
provider is not caught: it escapes the handler unchanged (no error
translation) as a raised fault, and no response envelope is produced for
that request. -/
theorem C2_outcome_delivery (provider : Provider) (st : BridgeState)
    (sender : SenderInfo) (event : PortRequestEvent) :
    (∀ e, (onMessageListener provider st sender event).outcome
        = HandlerOutcome.raised e →
      routeContentScriptRPCRequest provider event.request.method
          event.request.params = Except.error e) ∧
    (∀ resp, (onMessageListener provider st sender event).outcome
        = HandlerOutcome.reply resp →
      resp.result = ResultValue.err EIP1193ErrorCode.unauthorized ∨
      ∃ v, routeContentScriptRPCRequest provider event.request.method
          event.request.params = Except.ok v ∧
        resp.result = ResultValue.value v) ∧
    (∀ e, checkPermission st.allowedPages sender.url = true →
      routeContentScriptRPCRequest provider event.request.method
          event.request.params = Except.error e →
      (onMessageListener provider st sender event).outcome
        = HandlerOutcome.raised e) ∧
    (∀ st2 susp,
      (resumeAfterConsent st2 susp).result
          = ResultValue.value (RPCValue.list []) ∨
      (resumeAfterConsent st2 susp).result
          = ResultValue.err EIP1193ErrorCode.userRejectedRequest) := by
  refine ⟨?_, ?_, ?_, ?_⟩
  · intro e h
    unfold onMessageListener at h
    by_cases hc : checkPermission st.allowedPages sender.url
    · cases hroute : routeContentScriptRPCRequest provider
          event.request.method event.request.params with
      | ok v => simp [hc, hroute] at h
      | error e2 =>
          simp [hc, hroute] at h
          exact congrArg Except.error h
    · by_cases hm : event.request.method == "eth_requestAccounts" <;>
        simp [hc, hm] at h
  · intro resp h
    unfold onMessageListener at h
    by_cases hc : checkPermission st.allowedPages sender.url
    · cases hroute : routeContentScriptRPCRequest provider
          event.request.method event.request.params with
      | ok v =>
          simp [hc, hroute] at h
          exact Or.inr ⟨v, rfl, by rw [← h]⟩
      | error e2 => simp [hc, hroute] at h
    · by_cases hm : event.request.method == "eth_requestAccounts"
      · simp [hc, hm] at h
      · simp [hc, hm] at h
        exact Or.inl (by rw [← h])
  · intro e hc hroute
    simp [onMessageListener, hc, hroute]
  · intro st2 susp
    unfold resumeAfterConsent
    split
    · exact Or.inl rfl
    · exact Or.inr rfl

theorem C2_outcome_delivery_witness :
    checkPermission allowedState.allowedPages senderDapp.url = true ∧
    routeContentScriptRPCRequest providerBoom signEvent.request.method
        signEvent.request.params = Except.error { message := "boom" } ∧
    (onMessageListener providerBoom allowedState senderDapp signEvent).outcome
      = HandlerOutcome.raised { message := "boom" } :=
  ⟨by decide, by decide,
    (C2_outcome_delivery providerBoom allowedState senderDapp
        signEvent).2.2.1 { message := "boom" } (by decide) (by decide)⟩

end ProviderBridge

namespace DappPermissionSelectors

open ProviderBridge

/-- C10: `selectPendingPermissionRequests` returns exactly the permission
requests whose state is `"request"`, `selectCurrentPendingPermission` is the
first element of that list, and when no permission request has state
`"request"` it is `none` (JavaScript `undefined`) rather than a failure. -/
theorem C10_pending_permission_selectors (s : RootState) :
    (∀ p, p ∈ selectPendingPermissionRequests s ↔
        p ∈ selectPermissionRequests s ∧ p.state = "request") ∧
    selectCurrentPendingPermission s
        = (selectPendingPermissionRequests s).head? ∧
    ((∀ p ∈ selectPermissionRequests s, p.state ≠ "request") →
        selectCurrentPendingPermission s = none) := by
  refine ⟨fun p => ?_, rfl, fun hall => ?_⟩
  · simp [selectPendingPermissionRequests, List.mem_filter]
  · have : selectPendingPermissionRequests s = [] := by
      apply List.filter_eq_nil_iff.mpr
      intro p hp
      simpa using hall p hp
    simp [selectCurrentPendingPermission, this]

theorem C10_pending_permission_selectors_witness :
    (∀ p ∈ selectPermissionRequests
        { dappPermission := { permissionRequests :=
            [("https://dapp.example", ProviderBridge.allowRecord)] } },
      p.state ≠ "request") ∧
    selectCurrentPendingPermission
      { dappPermission := { permissionRequests :=
          [("https://dapp.example", ProviderBridge.allowRecord)] } } = none :=
  ⟨by decide,
    (C10_pending_permission_selectors
        { dappPermission := { permissionRequests :=
            [("https://dapp.example", ProviderBridge.allowRecord)] } }).2.2
      (by decide)⟩

end DappPermissionSelectors
